import Mathlib

/-!
Shallow embedding of the attention-capture, analytics, serialization and
validation core of the Diffusion-visualizer data generator, together with
theorems settling the specification's claims against the code.

Conventions used throughout:
* Python/NumPy floating-point numbers are modelled by exact rationals `ℚ`
  (float rounding is not modelled); float literals such as `1e-8` are taken
  at face value as `1/10^8`.
* Transcendental values (Shannon entropy, which uses `log`) live in `ℝ`.
* NumPy arrays / torch tensors are modelled by a shape list together with a
  row-major flat-index value function.
* Python dictionaries (which preserve insertion order and overwrite on
  re-assignment) are modelled by association lists with an update operation
  that replaces in place or appends.
* Fallible Python code (raising exceptions) is modelled with `Except`.
-/

namespace DiffVis

/-- The numeric constant `EPS = 1e-8` of `metrics/analytics.py` (line 10) and
the clamp bound `1e-8` used in `hooks/attention_recorder.py` and
`generate.py`, modelled by the exact rational `1/10^8`. -/
def EPS : ℚ := 1 / 100000000

/-- Python `f"{n:03d}"`: decimal representation left-padded with zeros to at
least three characters (used for `step_{step:03d}` file names). -/
def pad3 (n : Nat) : String :=
  let s := toString n
  if s.length < 3 then String.mk (List.replicate (3 - s.length) '0') ++ s else s

/-- Python `str(list_of_ints)`, e.g. `"[16, 64, 5]"` (used in shape-error
messages built from `list(attention_probs.shape)`). -/
def fmtNatList (l : List Nat) : String :=
  "[" ++ String.intercalate ", " (l.map toString) ++ "]"

/-- `pat` occurs at the head of `s`. -/
def charsStartWith : List Char → List Char → Bool
  | _, [] => true
  | [], _ :: _ => false
  | a :: as, b :: bs => b == a && charsStartWith as bs

/-- `pat` occurs somewhere in `s`. -/
def charsContain : List Char → List Char → Bool
  | [], pat => pat.isEmpty
  | a :: as, pat => charsStartWith (a :: as) pat || charsContain as pat

/-- Python's substring test `pat in s` (the empty pattern always matches,
as in Python). -/
def strContains (s pat : String) : Bool :=
  charsContain s.toList pat.toList

/-- Ordered-dictionary lookup on an association list. -/
def getAssoc {α : Type} : List (String × α) → String → Option α
  | [], _ => none
  | (k, v) :: rest, key => if k = key then some v else getAssoc rest key

/-- Ordered-dictionary assignment `d[key] = v`: replaces the value of the
first matching key in place (keeping its position, as Python dicts do; dict
keys are unique, so at most one entry matches) and appends otherwise. -/
def updateAssoc {α : Type} : List (String × α) → String → α → List (String × α)
  | [], key, v => [(key, v)]
  | (k, w) :: rest, key, v =>
    if k = key then (key, v) :: rest else (k, w) :: updateAssoc rest key v

theorem getAssoc_updateAssoc {α : Type} (l : List (String × α)) (key : String) (v : α) :
    getAssoc (updateAssoc l key v) key = some v := by
  induction l with
  | nil => simp [updateAssoc, getAssoc]
  | cons p rest ih =>
    obtain ⟨k, w⟩ := p
    rw [updateAssoc]
    by_cases hk : k = key
    · simp [hk, getAssoc]
    · rw [if_neg hk, getAssoc, if_neg hk]
      exact ih

theorem getAssoc_updateAssoc_ne {α : Type} (l : List (String × α)) (key key' : String)
    (v : α) (hne : key ≠ key') :
    getAssoc (updateAssoc l key v) key' = getAssoc l key' := by
  induction l with
  | nil => simp [updateAssoc, getAssoc, if_neg hne]
  | cons p rest ih =>
    obtain ⟨k, w⟩ := p
    rw [updateAssoc]
    by_cases hk : k = key
    · rw [if_pos hk, getAssoc, getAssoc, if_neg hne, if_neg (hk ▸ hne)]
    · rw [if_neg hk, getAssoc, getAssoc]
      by_cases hk' : k = key'
      · rw [if_pos hk', if_pos hk']
      · rw [if_neg hk', if_neg hk']
        exact ih

/-! ## Analytics (`src/data-generator/metrics/analytics.py`) -/

/-- The order used to model `np.argsort`: ascending by value, ties in
ascending index order.  NumPy's default `kind="quicksort"` argsort is a
deterministic ascending sort of the index range `0..n-1` whose tie order is
documented as unspecified; it is modelled here by this concrete total order
(ties ascending, i.e. a stable sort), which agrees with NumPy wherever the
scores are distinct and, on ties, with its small-array insertion-sort
regime (as in the two-element counterexample below).  Universal theorems
about the ranking therefore only use tie-order-independent consequences of
the model (descending scores, completeness, truncation, determinism). -/
def argsortLe (scores : List ℚ) (i j : ℕ) : Prop :=
  scores.getD i 0 < scores.getD j 0 ∨ (scores.getD i 0 = scores.getD j 0 ∧ i ≤ j)

instance argsortLeDec (scores : List ℚ) : DecidableRel (argsortLe scores) := fun i j => by
  unfold argsortLe
  exact inferInstance

instance argsortLeTotal (scores : List ℚ) : IsTotal ℕ (argsortLe scores) := by
  constructor
  intro i j
  unfold argsortLe
  rcases lt_trichotomy (scores.getD i 0) (scores.getD j 0) with h | h | h
  · exact Or.inl (Or.inl h)
  · rcases le_total i j with hij | hij
    · exact Or.inl (Or.inr ⟨h, hij⟩)
    · exact Or.inr (Or.inr ⟨h.symm, hij⟩)
  · exact Or.inr (Or.inl h)

instance argsortLeTrans (scores : List ℚ) : IsTrans ℕ (argsortLe scores) := by
  constructor
  intro i j k hij hjk
  unfold argsortLe at *
  rcases hij with h1 | ⟨e1, le1⟩
  · rcases hjk with h2 | ⟨e2, _⟩
    · exact Or.inl (h1.trans h2)
    · exact Or.inl (e2 ▸ h1)
  · rcases hjk with h2 | ⟨e2, le2⟩
    · exact Or.inl (e1 ▸ h2)
    · exact Or.inr ⟨e1.trans e2, le1.trans le2⟩

/-- `np.argsort(scores)` (analytics.py line 41): the index range sorted
ascending by score, ties by ascending original index. -/
def np_argsort (scores : List ℚ) : List ℕ :=
  List.insertionSort (argsortLe scores) (List.range scores.length)

/-- `token_importance_ranking` (analytics.py lines 40–48):
`np.argsort(token_scores)[::-1][:top_k]`, with each kept index paired with
its score (the Python code builds `{"token_index": i, "score": scores[i]}`
dictionaries; we model each entry as the pair `(i, scores[i])`). -/
def token_importance_ranking (token_scores : List ℚ) (top_k : ℕ) : List (ℕ × ℚ) :=
  ((np_argsort token_scores).reverse.take top_k).map (fun i => (i, token_scores.getD i 0))

/-- Result record of `compute_latent_pca` (analytics.py lines 51–54). -/
structure PcaResult where
  points : List (List ℚ)
  explained_variance_ratio : List ℚ
deriving DecidableEq

/-- `compute_latent_pca` (analytics.py lines 57–73).  The two degenerate
branches (`len == 0`, `len == 1`) are translated directly from the source;
the remaining branch calls `sklearn.decomposition.PCA(n_components=2)`,
an external library, modelled here by the parameter `fitTransform2`. -/
def compute_latent_pca (fitTransform2 : List (List ℚ) → PcaResult)
    (latents : List (List ℚ)) : PcaResult :=
  match latents with
  | [] => ⟨[], [0, 0]⟩
  | [_] => ⟨[[0, 0]], [1, 0]⟩
  | ls => fitTransform2 ls

/-- `normalize_distribution` (generate.py lines 157–159):
`np.clip(values, 1e-8, None)` then division by the sum. -/
def normalize_distribution (values : List ℚ) : List ℚ :=
  let v := values.map (fun x => max x EPS)
  v.map (fun x => x / v.sum)

/-! ## Theorems about the analytics functions -/

theorem list_map_div_sum (l : List ℚ) (c : ℚ) :
    (l.map (fun x => x / c)).sum = l.sum / c := by
  induction l with
  | nil => simp
  | cons a rest ih => simp [ih, add_div]

/-- C10: for every input vector of length at least one, every entry of
`normalize_distribution` is strictly positive, the entries sum to exactly 1,
and the clamped sum that the code divides by is strictly positive (so the
division is never a division by zero). -/
theorem C10_normalize_distribution_safe (values : List ℚ) (h : 1 ≤ values.length) :
    (∀ x ∈ normalize_distribution values, 0 < x) ∧
    (normalize_distribution values).sum = 1 ∧
    0 < (values.map (fun x => max x EPS)).sum := by
  have hEPS : (0 : ℚ) < EPS := by norm_num [EPS]
  have hpos : ∀ x ∈ values.map (fun x => max x EPS), 0 < x := by
    intro x hx
    rcases List.mem_map.mp hx with ⟨y, _, rfl⟩
    exact lt_of_lt_of_le hEPS (le_max_right y EPS)
  have hne : values.map (fun x => max x EPS) ≠ [] := by
    match values with
    | [] => simp at h
    | a :: rest => simp
  have hsum : 0 < (values.map (fun x => max x EPS)).sum := List.sum_pos _ hpos hne
  refine ⟨?_, ?_, hsum⟩
  · intro x hx
    rcases List.mem_map.mp hx with ⟨y, hy, rfl⟩
    exact div_pos (hpos y hy) hsum
  · unfold normalize_distribution
    rw [list_map_div_sum]
    exact div_self (ne_of_gt hsum)

/-- C10 witness: the theorem applied to the concrete vector `[-1, 0, 2]`
(which contains a negative entry and a zero entry). -/
theorem C10_normalize_distribution_safe_witness :
    1 ≤ ([-1, 0, 2] : List ℚ).length ∧
    ((∀ x ∈ normalize_distribution [-1, 0, 2], 0 < x) ∧
      (normalize_distribution [-1, 0, 2]).sum = 1 ∧
      0 < (([-1, 0, 2] : List ℚ).map (fun x => max x EPS)).sum) :=
  ⟨by simp, C10_normalize_distribution_safe [-1, 0, 2] (by simp)⟩

/-- C8: `compute_latent_pca` on the empty input returns `points = []` and
`explained_variance_ratio = [0, 0]`, and on a singleton input `[v]` returns
`points = [[0, 0]]` and `explained_variance_ratio = [1, 0]`, for any vector
`v` and any model of the (never invoked) sklearn fit-transform. -/
theorem C8_compute_latent_pca_degenerate
    (fitTransform2 : List (List ℚ) → PcaResult) (v : List ℚ) :
    compute_latent_pca fitTransform2 [] = ⟨[], [0, 0]⟩ ∧
    compute_latent_pca fitTransform2 [v] = ⟨[[0, 0]], [1, 0]⟩ :=
  ⟨rfl, rfl⟩

/-- The comparator the claim describes for `tokenImportanceRanking`:
descending score, ties broken by *ascending* original index. -/
def claimedLe (scores : List ℚ) (i j : ℕ) : Prop :=
  scores.getD j 0 < scores.getD i 0 ∨ (scores.getD i 0 = scores.getD j 0 ∧ i ≤ j)

instance claimedLeDec (scores : List ℚ) : DecidableRel (claimedLe scores) := fun i j => by
  unfold claimedLe
  exact inferInstance

/-- The ranking the spec claims (`descending sort, ties broken by ascending
original index, truncate to topK`), stated directly from the spec's words to
compare with the code's `token_importance_ranking`. -/
def claimedRanking (scores : List ℚ) (top_k : ℕ) : List (ℕ × ℚ) :=
  ((List.insertionSort (claimedLe scores) (List.range scores.length)).take top_k).map
    (fun i => (i, scores.getD i 0))

/-- C7 counterexample: on the tied score vector `[5, 5]` the code returns the
tied indices in descending index order `[(1, 5), (0, 5)]`, not the ascending
order `[(0, 5), (1, 5)]` that the claim describes. -/
theorem C7_token_importance_ranking_ties_cex :
    token_importance_ranking [5, 5] 2 = [(1, 5), (0, 5)] ∧
    claimedRanking [5, 5] 2 = [(0, 5), (1, 5)] ∧
    token_importance_ranking [5, 5] 2 ≠ claimedRanking [5, 5] 2 := by
  refine ⟨?_, ?_, ?_⟩ <;> decide

theorem np_argsort_sorted (scores : List ℚ) :
    List.Sorted (argsortLe scores) (np_argsort scores) :=
  List.sorted_insertionSort (argsortLe scores) (List.range scores.length)

theorem np_argsort_perm (scores : List ℚ) :
    List.Perm (np_argsort scores) (List.range scores.length) :=
  List.perm_insertionSort (argsortLe scores) (List.range scores.length)

theorem np_argsort_nodup (scores : List ℚ) : (np_argsort scores).Nodup :=
  ((np_argsort_perm scores).nodup_iff).mpr (List.nodup_range _)

/-- C7 (amended): `tokenImportanceRanking` returns index/score entries
sorted by descending score — ties between equal scores come out in a
deterministic but algorithm-dependent order that is *not*, in general,
the ascending original index the claim describes — with the untruncated
ranking covering every valid index exactly once; the result is that full
ranking truncated to `topK` entries (length `min topK n`), each entry
carries its own score, and repeated calls on identical input return
identical output. -/
theorem C7_token_importance_ranking_amended (scores : List ℚ) (top_k : ℕ) :
    (token_importance_ranking scores top_k).Pairwise (fun a b => b.2 ≤ a.2) ∧
    List.Perm ((token_importance_ranking scores scores.length).map Prod.fst)
      (List.range scores.length) ∧
    token_importance_ranking scores top_k =
      (token_importance_ranking scores scores.length).take top_k ∧
    (token_importance_ranking scores top_k).length = min top_k scores.length ∧
    (∀ p ∈ token_importance_ranking scores top_k,
      p.1 < scores.length ∧ p.2 = scores.getD p.1 0) ∧
    token_importance_ranking scores top_k = token_importance_ranking scores top_k := by
  have hlen : (np_argsort scores).reverse.length = scores.length := by
    rw [List.length_reverse]
    exact (np_argsort_perm scores).length_eq.trans (List.length_range _)
  refine ⟨?_, ?_, ?_, ?_, ?_, rfl⟩
  · have hsorted : (np_argsort scores).Pairwise (argsortLe scores) :=
      np_argsort_sorted scores
    have hrev : (np_argsort scores).reverse.Pairwise
        (fun i j => argsortLe scores j i) :=
      (List.pairwise_reverse).mpr hsorted
    have htake : ((np_argsort scores).reverse.take top_k).Pairwise
        (fun i j => argsortLe scores j i) :=
      hrev.sublist (List.take_sublist _ _)
    unfold token_importance_ranking
    rw [List.pairwise_map]
    refine htake.imp ?_
    intro i j hij
    rcases hij with hlt | ⟨heq, _⟩
    · exact le_of_lt hlt
    · exact le_of_eq heq
  · have hfull : (token_importance_ranking scores scores.length).map Prod.fst =
        (np_argsort scores).reverse := by
      unfold token_importance_ranking
      rw [← hlen, List.take_length, List.map_map]
      have hcomp : (Prod.fst ∘ fun i : ℕ => (i, scores.getD i 0)) = id := rfl
      rw [hcomp, List.map_id]
    rw [hfull]
    exact ((np_argsort scores).reverse_perm).trans (np_argsort_perm scores)
  · unfold token_importance_ranking
    rw [← hlen, List.take_length, List.map_take]
  · unfold token_importance_ranking
    rw [List.length_map, List.length_take, hlen]
  · intro p hp
    unfold token_importance_ranking at hp
    rcases List.mem_map.mp hp with ⟨i, hi, rfl⟩
    have hi' : i ∈ np_argsort scores :=
      List.mem_reverse.mp (List.mem_of_mem_take hi)
    have hmem : i ∈ List.range scores.length := (np_argsort_perm scores).mem_iff.mp hi'
    exact ⟨List.mem_range.mp hmem, rfl⟩

/-! ## Tensors

NumPy arrays and torch tensors are modelled by a shape list, a dtype tag and
a row-major flat-index value function (entries at flat indices beyond the
shape product are irrelevant). -/

structure Tensor where
  shape : List ℕ
  dtype : String
  data : ℕ → ℚ

/-! ## DatasetSerializer (`src/data-generator/compression/serializer.py`)

The serializer's directory creation and `save_image` (which defers to the
external PIL PNG codec) are outside the claims; the on-disk state is
modelled as a map from relative path to file byte size. -/

/-- One entry of the in-memory manifest `attention_files`
(serializer.py lines 46–53). -/
structure AttentionFileRecord where
  step : ℕ
  layer_id : String
  attention_type : String
  path : String
  shape : List ℕ
  dtype : String
deriving DecidableEq

structure SerializerState where
  files : List (String × ℕ)
  attention_files : List AttentionFileRecord
deriving DecidableEq

/-- The serializer's state right after construction: directories exist but no
files have been written and the manifest is empty. -/
def serializerInit : SerializerState := ⟨[], []⟩

/-- `DatasetSerializer.save_attention` (serializer.py lines 33–55): coerce the
array to float16, choose `attention/{type}/{layerId}_step_{3-digit}.bin`
(raising `ValueError` on any other type), write the raw values — for a
float16 array `array.tofile` writes exactly `array.size * 2` bytes, which is
how the write is modelled — and append the manifest record. -/
def save_attention (st : SerializerState) (step : ℕ) (layer_id attention_type : String)
    (array : Tensor) : Except String (SerializerState × AttentionFileRecord) :=
  let arr := if array.dtype ≠ "float16" then { array with dtype := "float16" } else array
  let file_name := layer_id ++ "_step_" ++ pad3 step ++ ".bin"
  if attention_type = "cross" ∨ attention_type = "self" then
    let path := "attention/" ++ attention_type ++ "/" ++ file_name
    let record : AttentionFileRecord :=
      ⟨step, layer_id, attention_type, path, arr.shape, "float16"⟩
    .ok (⟨updateAssoc st.files path (arr.shape.prod * 2),
          st.attention_files ++ [record]⟩, record)
  else .error ("Unsupported attention type: " ++ attention_type)

/-- Python `repr` of a manifest record dictionary (used only inside the
`invalid_path_metadata` error message). -/
def recordRepr (r : AttentionFileRecord) : String :=
  "\x7b\x27step\x27: " ++ toString r.step ++
  ", \x27layer_id\x27: \x27" ++ r.layer_id ++
  "\x27, \x27attention_type\x27: \x27" ++ r.attention_type ++
  "\x27, \x27path\x27: \x27" ++ r.path ++
  "\x27, \x27shape\x27: " ++ fmtNatList r.shape ++
  ", \x27dtype\x27: \x27" ++ r.dtype ++ "\x27\x7d"

/-- Report returned by `validate_attention_assets` (generate.py lines
278–282). -/
structure ValidationReport where
  checked_files : ℕ
  passed : Bool
  errors : List String
deriving DecidableEq

/-- The errors `validate_attention_assets` (generate.py lines 243–276)
accumulates for a single manifest record.  The records are the typed values
built by `save_attention`, so the Python `isinstance` checks on `path` and
`shape` reduce to the emptiness checks, and `not isinstance(dim, int) or
dim <= 0` on a `ℕ` dimension reduces to `dim = 0`; the dimension loop stops
at the first bad dimension and skips the size comparison. -/
def recordErrors (files : List (String × ℕ)) (r : AttentionFileRecord) : List String :=
  if r.path = "" then ["invalid_path_metadata:" ++ recordRepr r]
  else
    match getAssoc files r.path with
    | none => ["missing_file:" ++ r.path]
    | some actual =>
      if r.shape = [] then ["invalid_shape_metadata:" ++ r.path]
      else if r.shape.any (fun d => d = 0) then
        ["invalid_shape_dimension:" ++ r.path ++ ":" ++ fmtNatList r.shape]
      else if actual ≠ r.shape.prod * 2 then
        ["size_mismatch:" ++ r.path ++ ":expected=" ++ toString (r.shape.prod * 2) ++
          ":actual=" ++ toString actual]
      else []

/-- `validate_attention_assets` (generate.py lines 239–282): the loop checks
every record, accumulating all errors in order rather than failing fast, and
reports `passed` exactly when no error accumulated. -/
def validate_attention_assets (files : List (String × ℕ))
    (records : List AttentionFileRecord) : ValidationReport :=
  let errors := (records.map (recordErrors files)).flatten
  ⟨records.length, errors.isEmpty, errors⟩

/-- One driver call to `save_attention`, as issued by the per-step export
loop of `generate.py` (lines 446–450). -/
structure SaveCall where
  step : ℕ
  layer_id : String
  attention_type : String
  array : Tensor

/-- The relative path `save_attention` writes for a call. -/
def pathOfCall (c : SaveCall) : String :=
  "attention/" ++ c.attention_type ++ "/" ++
    (c.layer_id ++ "_step_" ++ pad3 c.step ++ ".bin")

/-- The manifest record `save_attention` appends for a call. -/
def recordOfCall (c : SaveCall) : AttentionFileRecord :=
  ⟨c.step, c.layer_id, c.attention_type, pathOfCall c, c.array.shape, "float16"⟩

/-- A sequence of `save_attention` calls against one serializer. -/
def runSaves : SerializerState → List SaveCall → Except String SerializerState
  | st, [] => .ok st
  | st, c :: rest =>
    match save_attention st c.step c.layer_id c.attention_type c.array with
    | .error e => .error e
    | .ok (st', _) => runSaves st' rest

/-! ## Theorems about the serializer and the asset validator (C1) -/

theorem recordErrors_eq_nil_iff (files : List (String × ℕ)) (r : AttentionFileRecord)
    (hpath : r.path ≠ "")
    (hsize : getAssoc files r.path = some (r.shape.prod * 2)) :
    recordErrors files r = [] ↔ (r.shape ≠ [] ∧ ∀ d ∈ r.shape, 0 < d) := by
  unfold recordErrors
  simp only [if_neg hpath, hsize]
  by_cases hsh : r.shape = []
  · simp [hsh]
  · rw [if_neg hsh]
    cases hz : r.shape.any (fun d => d == 0) with
    | true =>
      rw [if_pos rfl]
      constructor
      · intro h
        exact absurd h (by simp)
      · rintro ⟨-, hall⟩
        rcases List.any_eq_true.mp hz with ⟨d, hd, hd0⟩
        have hd0' : d = 0 := by simpa using hd0
        have := hall d hd
        omega
    | false =>
      rw [if_neg (by simp)]
      rw [if_neg (by simp)]
      constructor
      · intro _
        refine ⟨hsh, ?_⟩
        intro d hd
        have : ¬(d == 0) = true := by
          intro hcon
          have : r.shape.any (fun d => d == 0) = true := List.any_eq_true.mpr ⟨d, hd, hcon⟩
          rw [hz] at this
          exact absurd this (by simp)
        simp at this
        omega
      · intro _
        rfl

theorem validate_passed_iff (files : List (String × ℕ))
    (records : List AttentionFileRecord)
    (h : ∀ r ∈ records, r.path ≠ "" ∧ getAssoc files r.path = some (r.shape.prod * 2)) :
    (validate_attention_assets files records).passed = true ↔
      ∀ r ∈ records, r.shape ≠ [] ∧ ∀ d ∈ r.shape, 0 < d := by
  unfold validate_attention_assets
  simp only [List.isEmpty_iff, List.flatten_eq_nil_iff]
  constructor
  · intro hall r hr
    have hnil := hall (recordErrors files r) (List.mem_map.mpr ⟨r, hr, rfl⟩)
    exact (recordErrors_eq_nil_iff files r (h r hr).1 (h r hr).2).mp hnil
  · intro hall e he
    rcases List.mem_map.mp he with ⟨r, hr, rfl⟩
    exact (recordErrors_eq_nil_iff files r (h r hr).1 (h r hr).2).mpr (hall r hr)

theorem save_attention_ok (st : SerializerState) (c : SaveCall)
    (hc : c.attention_type = "cross" ∨ c.attention_type = "self") :
    save_attention st c.step c.layer_id c.attention_type c.array =
      .ok (⟨updateAssoc st.files (pathOfCall c) (c.array.shape.prod * 2),
            st.attention_files ++ [recordOfCall c]⟩, recordOfCall c) := by
  have hshape :
      (if c.array.dtype ≠ "float16" then { c.array with dtype := "float16" } else c.array).shape
        = c.array.shape := by
    split <;> rfl
  unfold save_attention
  rw [if_pos hc]
  simp only [hshape]
  rfl

theorem pathOfCall_ne_empty (c : SaveCall) : pathOfCall c ≠ "" := by
  unfold pathOfCall
  intro h
  have hlen := congrArg String.length h
  simp only [String.length_append] at hlen
  have h10 : ("attention/" : String).length = 10 := rfl
  have h0 : ("" : String).length = 0 := rfl
  rw [h10, h0] at hlen
  omega

theorem runSaves_ok (calls : List SaveCall) (st0 : SerializerState)
    (htype : ∀ c ∈ calls, c.attention_type = "cross" ∨ c.attention_type = "self")
    (hdist : (calls.map pathOfCall).Nodup)
    (hfresh : ∀ c ∈ calls, ∀ r ∈ st0.attention_files, pathOfCall c ≠ r.path)
    (hI : ∀ r ∈ st0.attention_files, getAssoc st0.files r.path = some (r.shape.prod * 2)) :
    ∃ stf, runSaves st0 calls = .ok stf ∧
      stf.attention_files = st0.attention_files ++ calls.map recordOfCall ∧
      ∀ r ∈ stf.attention_files, getAssoc stf.files r.path = some (r.shape.prod * 2) := by
  induction calls generalizing st0 with
  | nil => exact ⟨st0, rfl, by simp, hI⟩
  | cons c rest ih =>
    have hct := htype c (List.mem_cons_self c rest)
    set st1 : SerializerState :=
      ⟨updateAssoc st0.files (pathOfCall c) (c.array.shape.prod * 2),
        st0.attention_files ++ [recordOfCall c]⟩ with hst1
    have hI1 : ∀ r ∈ st1.attention_files, getAssoc st1.files r.path = some (r.shape.prod * 2) := by
      intro r hr
      rw [hst1] at hr ⊢
      simp only [List.mem_append, List.mem_singleton] at hr
      rcases hr with hr | rfl
      · have hne : pathOfCall c ≠ r.path := hfresh c (List.mem_cons_self c rest) r hr
        simp only
        rw [getAssoc_updateAssoc_ne _ _ _ _ hne]
        exact hI r hr
      · simp only [recordOfCall]
        rw [getAssoc_updateAssoc]
    have hfresh1 : ∀ c' ∈ rest, ∀ r ∈ st1.attention_files, pathOfCall c' ≠ r.path := by
      intro c' hc' r hr
      rw [hst1] at hr
      simp only [List.mem_append, List.mem_singleton] at hr
      rcases hr with hr | rfl
      · exact hfresh c' (List.mem_cons_of_mem c hc') r hr
      · have hnd := hdist
        rw [List.map_cons, List.nodup_cons] at hnd
        intro heq
        have heq' : pathOfCall c' = pathOfCall c := heq
        exact hnd.1 (heq' ▸ List.mem_map.mpr ⟨c', hc', rfl⟩)
    have hdist1 : (rest.map pathOfCall).Nodup := by
      have := hdist
      rw [List.map_cons, List.nodup_cons] at this
      exact this.2
    obtain ⟨stf, hrun, hrec, hinv⟩ :=
      ih st1 (fun c' hc' => htype c' (List.mem_cons_of_mem c hc')) hdist1 hfresh1 hI1
    refine ⟨stf, ?_, ?_, hinv⟩
    · rw [runSaves, save_attention_ok st0 c hct]
      exact hrun
    · rw [hrec, hst1]
      simp

/-- C1 counterexample input: a float16 array of shape `[0]` — `tofile` writes
`0 = prod([0]) * 2` bytes, so the record does not violate the byte-size
equation, yet the validator reports `passed = false`. -/
def c1Tensor : Tensor := ⟨[0], "float16", fun _ => 0⟩

def c1Record : AttentionFileRecord :=
  ⟨0, "layer_0", "cross", "attention/cross/layer_0_step_000.bin", [0], "float16"⟩

def c1State : SerializerState :=
  ⟨[("attention/cross/layer_0_step_000.bin", 0)], [c1Record]⟩

/-- C1 overwrite counterexample inputs: two calls with the same
`(attention_type, layer_id, step)` triple and different shapes — the second
`tofile` overwrites the first call's file. -/
def c1OverA : SaveCall := ⟨0, "layer_0", "cross", ⟨[2, 2], "float16", fun _ => 0⟩⟩

def c1OverB : SaveCall := ⟨0, "layer_0", "cross", ⟨[3], "float16", fun _ => 0⟩⟩

def c1RecA : AttentionFileRecord :=
  ⟨0, "layer_0", "cross", "attention/cross/layer_0_step_000.bin", [2, 2], "float16"⟩

def c1RecB : AttentionFileRecord :=
  ⟨0, "layer_0", "cross", "attention/cross/layer_0_step_000.bin", [3], "float16"⟩

def c1OverState : SerializerState :=
  ⟨[("attention/cross/layer_0_step_000.bin", 6)], [c1RecA, c1RecB]⟩

/-- C1 counterexample.  First: after a single `save_attention` call with an
array of shape `[0]`, the stored file size equals `product(shape) * 2` (no
record violates the size equation), yet `validate_attention_assets` reports
`passed = false` (it rejects non-positive shape dimensions first) — refuting
"passed iff no record violates the size equation".  Second: two calls with
the same `(type, layer, step)` triple overwrite one file, after which the
first record's file no longer holds `product(shape) * 2` bytes — refuting
the unconditional "for every record fileSize == product(shape)*2". -/
theorem C1_validate_iff_cex :
    (save_attention serializerInit 0 "layer_0" "cross" c1Tensor =
      .ok (c1State, c1Record) ∧
    getAssoc c1State.files c1Record.path = some (c1Record.shape.prod * 2) ∧
    (validate_attention_assets c1State.files c1State.attention_files).passed = false) ∧
    (runSaves serializerInit [c1OverA, c1OverB] = .ok c1OverState ∧
    c1OverState.attention_files = [c1RecA, c1RecB] ∧
    getAssoc c1OverState.files c1RecA.path ≠ some (c1RecA.shape.prod * 2)) := by
  refine ⟨⟨?_, ?_, ?_⟩, ?_, ?_, ?_⟩
  · rfl
  · rfl
  · rfl
  · rfl
  · rfl
  · decide

/-- C1 (amended): for any sequence of `save_attention` calls with valid
attention types whose target paths are pairwise distinct (no overwrites —
in a run, each (type, layer, step) is saved once), every manifest record's
file holds exactly `product(shape) * 2` bytes, and
`validate_attention_assets` passes iff every record's shape is a non-empty
list of positive dimensions (the byte-size equation itself can never fail
for such records; what can fail the validator is only shape metadata with a
zero or missing dimension). -/
theorem C1_save_attention_size_amended (calls : List SaveCall)
    (htype : ∀ c ∈ calls, c.attention_type = "cross" ∨ c.attention_type = "self")
    (hdist : (calls.map pathOfCall).Nodup) :
    ∃ stf, runSaves serializerInit calls = .ok stf ∧
      stf.attention_files = calls.map recordOfCall ∧
      (∀ r ∈ stf.attention_files, getAssoc stf.files r.path = some (r.shape.prod * 2)) ∧
      ((validate_attention_assets stf.files stf.attention_files).passed = true ↔
        ∀ r ∈ stf.attention_files, r.shape ≠ [] ∧ ∀ d ∈ r.shape, 0 < d) := by
  obtain ⟨stf, hrun, hrec, hinv⟩ :=
    runSaves_ok calls serializerInit htype hdist (by simp [serializerInit])
      (by simp [serializerInit])
  have hrec' : stf.attention_files = calls.map recordOfCall := by
    rw [hrec]
    simp [serializerInit]
  refine ⟨stf, hrun, hrec', hinv, ?_⟩
  apply validate_passed_iff
  intro r hr
  refine ⟨?_, hinv r hr⟩
  rw [hrec'] at hr
  rcases List.mem_map.mp hr with ⟨c, _, rfl⟩
  exact pathOfCall_ne_empty c

/-- C1 witness inputs: a cross map of shape `[5, 8, 8]` saved for
`layer_0` and a self map of shape `[8, 8]` saved for `layer_1`, both at
step 0. -/
def c1CallA : SaveCall := ⟨0, "layer_0", "cross", ⟨[5, 8, 8], "float32", fun _ => 0⟩⟩

def c1CallB : SaveCall := ⟨0, "layer_1", "self", ⟨[8, 8], "float16", fun _ => 0⟩⟩

/-- C1 witness: the amended theorem applied to the two concrete calls. -/
theorem C1_save_attention_size_amended_witness :
    ((∀ c ∈ [c1CallA, c1CallB],
        c.attention_type = "cross" ∨ c.attention_type = "self") ∧
      (([c1CallA, c1CallB].map pathOfCall).Nodup)) ∧
    (∃ stf,
      runSaves serializerInit [c1CallA, c1CallB] = .ok stf ∧
      stf.attention_files = [c1CallA, c1CallB].map recordOfCall ∧
      (∀ r ∈ stf.attention_files, getAssoc stf.files r.path = some (r.shape.prod * 2)) ∧
      ((validate_attention_assets stf.files stf.attention_files).passed = true ↔
        ∀ r ∈ stf.attention_files, r.shape ≠ [] ∧ ∀ d ∈ r.shape, 0 < d)) :=
  ⟨⟨by
      intro c hc
      simp only [List.mem_cons, List.not_mem_nil, or_false] at hc
      rcases hc with rfl | rfl
      · exact Or.inl rfl
      · exact Or.inr rfl,
    by decide⟩,
    C1_save_attention_size_amended [c1CallA, c1CallB]
      (by
        intro c hc
        simp only [List.mem_cons, List.not_mem_nil, or_false] at hc
        rcases hc with rfl | rfl
        · exact Or.inl rfl
        · exact Or.inr rfl)
      (by decide)⟩

/-! ## Standalone dataset validator (`src/data-generator/validate_dataset.py`)

JSON documents are modelled by an inductive value type; Python integers and
floats parsed from JSON are distinguished (`isinstance(x, int)` is true for
ints and bools — bool subclasses int — and false for floats).  The dataset
directory is modelled as a map from relative path to file content and byte
size. -/

inductive Json where
  | null
  | jbool (b : Bool)
  | jint (n : ℤ)
  | jnum (q : ℚ)
  | jstr (s : String)
  | jarr (items : List Json)
  | jobj (fields : List (String × Json))

/-- Python exceptions raised (or re-raised) by the validator. -/
inductive PyError where
  | fileNotFound (msg : String)
  | valueError (msg : String)
  | typeError (msg : String)
  | attributeError (msg : String)
deriving DecidableEq

/-- A file on disk: either text that parses as JSON, or anything else. -/
inductive FileData where
  | jsonDoc (j : Json)
  | notJson

structure DFile where
  content : FileData
  size : ℕ

/-- The dataset directory: relative path to file. -/
def FileSystem : Type := List (String × DFile)

/-- `read_json` (validate_dataset.py lines 21–27): a missing file re-raises
`FileNotFoundError` with message `Missing file: {path}`; text that fails to
parse raises `ValueError` with message `Invalid JSON in {path}: {exc}` (the
decoder's own detail is omitted from the model). -/
def read_json (fs : FileSystem) (path : String) : Except PyError Json :=
  match getAssoc fs path with
  | none => .error (.fileNotFound ("Missing file: " ++ path))
  | some f =>
    match f.content with
    | .jsonDoc j => .ok j
    | .notJson => .error (.valueError ("Invalid JSON in " ++ path))

/-- `REQUIRED_METADATA_KEYS` (validate_dataset.py lines 9–18). -/
def REQUIRED_METADATA_KEYS : List String :=
  ["schema_version", "generator", "prompt", "steps", "timesteps", "images",
    "layers", "attention_files"]

/-- Python `key in x` for a string key: dict key lookup, list membership,
substring test on strings; `TypeError` otherwise. -/
def pyContains (j : Json) (key : String) : Except PyError Bool :=
  match j with
  | .jobj fields => .ok (getAssoc fields key).isSome
  | .jarr items =>
    .ok (items.any (fun it => match it with | .jstr s => s = key | _ => false))
  | .jstr s => .ok (strContains s key)
  | _ => .error (.typeError "argument of type is not iterable")

/-- Python `x.get(key)` on a JSON value: key lookup on dicts (`None` when
absent, modelled as `Json.null`, which Python cannot distinguish from a
stored JSON `null`); `AttributeError` on anything that is not a dict. -/
def pyGetOrNull (j : Json) (key : String) : Except PyError Json :=
  match j with
  | .jobj fields =>
    match getAssoc fields key with
    | none => .ok .null
    | some v => .ok v
  | _ => .error (.attributeError "object has no attribute get")

/-- Python `x.get(key, default)`. -/
def pyGetD (j : Json) (key : String) (dflt : Json) : Except PyError Json :=
  match j with
  | .jobj fields =>
    match getAssoc fields key with
    | none => .ok dflt
    | some v => .ok v
  | _ => .error (.attributeError "object has no attribute get")

/-- Python `len(x)`: arrays, strings and dicts are sized; `TypeError`
otherwise. -/
def pyLen (j : Json) : Except PyError ℤ :=
  match j with
  | .jarr items => .ok items.length
  | .jstr s => .ok s.length
  | .jobj fields => .ok fields.length
  | _ => .error (.typeError "object has no len")

/-- Python `isinstance(x, int)`: true for ints and bools (bool subclasses
int in Python), false for floats and everything else. -/
def pyIsInt : Json → Bool
  | .jint _ => true
  | .jbool _ => true
  | _ => false

/-- The integer value of a Python int-like object (`True == 1`,
`False == 0`). -/
def pyToInt : Json → ℤ
  | .jint n => n
  | .jbool b => if b then 1 else 0
  | _ => 0

/-- Python `isinstance(x, str)`. -/
def pyIsStr : Json → Bool
  | .jstr _ => true
  | _ => false

def pyToStr : Json → String
  | .jstr s => s
  | _ => ""

/-- Iterating a JSON value (`for entry in x`): arrays yield their items,
dicts their keys, strings their characters; `TypeError` otherwise. -/
def pyIter (j : Json) : Except PyError (List Json) :=
  match j with
  | .jarr items => .ok items
  | .jobj fields => .ok (fields.map (fun p => .jstr p.1))
  | .jstr s => .ok (s.toList.map (fun ch => .jstr (String.mk [ch])))
  | _ => .error (.typeError "object is not iterable")

/-- Two-decimal fixed-point formatting `f"{q:.2f}"` for a non-negative
rational (used only inside the soft-budget warning string; Python's
round-half-even at the third decimal is modelled as plain rounding). -/
def fmt2dec (q : ℚ) : String :=
  let c : ℤ := round (q * 100)
  let ip := c / 100
  let fp := (c % 100).toNat
  toString ip ++ "." ++ (if fp < 10 then "0" else "") ++ toString fp

/-- `validate` (validate_dataset.py lines 30–93), translated statement by
statement: read the three documents (any missing or unparsable one raises),
check required metadata keys, validate `steps` (early return on failure),
check the step-indexed array lengths, check every attention-file record
against the file sizes on disk, and emit the soft size-budget warning.
Returns `(len(errors) == 0, errors, warnings)`. -/
def validate (fs : FileSystem) : Except PyError (Bool × List String × List String) := do
  let metadata ← read_json fs "metadata.json"
  let metrics ← read_json fs "metrics.json"
  let latent_pca ← read_json fs "latent_pca.json"
  let mut errors : List String := []
  let mut warnings : List String := []
  for key in REQUIRED_METADATA_KEYS do
    if !(← pyContains metadata key) then
      errors := errors ++ ["metadata missing key: " ++ key]
  let steps ← pyGetOrNull metadata "steps"
  if !pyIsInt steps || pyToInt steps ≤ 0 then
    errors := errors ++ ["metadata.steps must be a positive integer"]
    return (false, errors, warnings)
  let stepsVal := pyToInt steps
  let timesteps ← pyGetD metadata "timesteps" (.jarr [])
  if (← pyLen timesteps) ≠ stepsVal then
    errors := errors ++ ["metadata.timesteps length mismatch"]
  let images ← pyGetD metadata "images" (.jarr [])
  if (← pyLen images) ≠ stepsVal then
    errors := errors ++ ["metadata.images length mismatch"]
  let l2 ← pyGetD metrics "latent_l2_norm" (.jarr [])
  if (← pyLen l2) ≠ stepsVal then
    errors := errors ++ ["metrics.latent_l2_norm length mismatch"]
  let points ← pyGetD latent_pca "points" (.jarr [])
  if (← pyLen points) ≠ stepsVal then
    errors := errors ++ ["latent_pca.points length mismatch"]
  let evr ← pyGetD latent_pca "explained_variance_ratio" (.jarr [])
  if (← pyLen evr) ≠ 2 then
    errors := errors ++ ["latent_pca.explained_variance_ratio must have exactly two values"]
  let afval ← pyGetD metadata "attention_files" (.jarr [])
  let entries ← pyIter afval
  let mut idx : ℕ := 0
  for entry in entries do
    let i := idx
    idx := idx + 1
    let rel_path ← pyGetOrNull entry "path"
    let shape ← pyGetOrNull entry "shape"
    if !pyIsStr rel_path || pyToStr rel_path = "" then
      errors := errors ++ ["attention_files[" ++ toString i ++ "] has invalid path"]
      continue
    let rels := pyToStr rel_path
    match shape with
    | .jarr dims =>
      if dims.isEmpty then
        errors := errors ++ ["attention_files[" ++ toString i ++ "] has invalid shape"]
        continue
      if dims.any (fun d => !pyIsInt d || pyToInt d ≤ 0) then
        errors := errors ++ ["attention_files[" ++ toString i ++ "] has non-positive shape dimensions"]
        continue
      match getAssoc fs rels with
      | none =>
        errors := errors ++ ["missing attention file: " ++ rels]
        continue
      | some f =>
        let expected_bytes : ℤ := (dims.map pyToInt).prod * 2
        let actual_bytes : ℤ := f.size
        if expected_bytes ≠ actual_bytes then
          errors := errors ++
            ["attention size mismatch for " ++ rels ++ " (expected " ++
              toString expected_bytes ++ " bytes, got " ++ toString actual_bytes ++ ")"]
    | _ =>
      errors := errors ++ ["attention_files[" ++ toString i ++ "] has invalid shape"]
      continue
  let totalBytes : ℕ := (fs.map (fun p => p.2.size)).sum
  let size_mb : ℚ := (totalBytes : ℚ) / (1024 * 1024)
  if size_mb > 200 then
    warnings := warnings ++ ["dataset size is " ++ fmt2dec size_mb ++ "MB (>200MB)"]
  return (errors.isEmpty, errors, warnings)

/-! ## AttentionRecorder (`src/data-generator/hooks/attention_recorder.py`)

Per-step dictionaries are association lists; entropy values are real
numbers (`float` computed with `log` in the source); the float16 casts of
the stored maps are modelled by the dtype tag with exact values. -/

structure RecorderState where
  token_count : ℕ
  attention_resolution : ℕ
  self_attention_resolution : ℕ
  cfg_enabled : Bool
  current_step : ℤ
  current_timestep : ℤ
  cross_maps : List (String × Tensor)
  self_maps : List (String × Tensor)
  cross_entropy : List (String × ℝ)
  self_entropy : List (String × ℝ)
  token_activation_by_layer : List (String × List ℚ)
  shape_errors : List String

/-- The field values `AttentionRecorder.__init__` assigns (lines 33–45). -/
def recState (token_count attention_resolution self_attention_resolution : ℕ)
    (cfg_enabled : Bool) : RecorderState :=
  ⟨token_count, attention_resolution, self_attention_resolution, cfg_enabled,
    -1, -1, [], [], [], [], [], []⟩

/-- `AttentionRecorder.__init__` (lines 21–45): `ValueError` on non-positive
construction parameters (with `ℕ` parameters, `<= 0` is `= 0`). -/
def recorderInit (token_count attention_resolution self_attention_resolution : ℕ)
    (cfg_enabled : Bool) : Except String RecorderState :=
  if token_count = 0 then .error "token_count must be > 0"
  else if attention_resolution = 0 ∨ self_attention_resolution = 0 then
    .error "attention resolutions must be > 0"
  else .ok (recState token_count attention_resolution self_attention_resolution cfg_enabled)

/-- `AttentionRecorder.set_step` (lines 47–54): stores the step and timestep
and clears the five per-step map/entropy/activation accumulators.  The
`shape_errors` list is *not* touched here (it is cleared by `drain_step`). -/
def set_step (st : RecorderState) (step timestep : ℤ) : RecorderState :=
  { st with
    current_step := step
    current_timestep := timestep
    cross_maps := []
    self_maps := []
    cross_entropy := []
    self_entropy := []
    token_activation_by_layer := [] }

/-- The conditional batch index (line 80):
`batch - 1 if self.cfg_enabled and batch > 1 else 0`. -/
def cond_index (cfg_enabled : Bool) (batch : ℕ) : ℕ :=
  if cfg_enabled ∧ 1 < batch then batch - 1 else 0

/-- `AttentionRecorder._extract_conditional_attention` (lines 56–81): shape
checks with descriptive error strings, reshape `[BH, Q, K]` to
`[B, H, Q, K]`, select the conditional batch index, and average over the
head axis into a `[Q, K]` matrix. -/
def rankErrMsg (step : ℤ) (rank : ℕ) : String :=
  "step=" ++ toString step ++ " has invalid attention rank " ++ toString rank

def _extract_conditional_attention (st : RecorderState) (attention_probs : Tensor)
    (heads : ℤ) : RecorderState × Option Tensor :=
  if attention_probs.shape.length ≠ 3 then
    ({ st with shape_errors := st.shape_errors ++
        [rankErrMsg st.current_step attention_probs.shape.length] }, none)
  else if heads ≤ 0 then
    ({ st with shape_errors := st.shape_errors ++
        ["step=" ++ toString st.current_step ++ " has invalid head count " ++
          toString heads] }, none)
  else
    let batch_heads := attention_probs.shape.getD 0 0
    let query_tokens := attention_probs.shape.getD 1 0
    let key_tokens := attention_probs.shape.getD 2 0
    if (batch_heads : ℤ) % heads ≠ 0 then
      ({ st with shape_errors := st.shape_errors ++
          ["step=" ++ toString st.current_step ++ " cannot reshape attention " ++
            fmtNatList attention_probs.shape ++ " with heads=" ++ toString heads] }, none)
    else
      let h := heads.toNat
      let batch := batch_heads / h
      let ci := cond_index st.cfg_enabled batch
      (st, some ⟨[query_tokens, key_tokens], attention_probs.dtype,
        fun idx =>
          let q := idx / key_tokens
          let k := idx % key_tokens
          (∑ hh ∈ Finset.range h,
            attention_probs.data (((ci * h + hh) * query_tokens + q) * key_tokens + k)) / h⟩)

/-- The probability clamp `matrix.clamp(min=1e-8)` (line 84). -/
def clampProb (x : ℚ) : ℚ := max x EPS

/-- `AttentionRecorder._entropy` (lines 83–86) of a `[Q, K]` matrix:
`-(p * p.log()).sum(dim=-1).mean()` after clamping. -/
noncomputable def _entropy (matrix : Tensor) : ℝ :=
  let q := matrix.shape.getD 0 0
  let k := matrix.shape.getD 1 0
  (∑ i ∈ Finset.range q, ∑ j ∈ Finset.range k,
    -((clampProb (matrix.data (i * k + j)) : ℝ) *
      Real.log (clampProb (matrix.data (i * k + j))))) / q

/-- `.to(dtype=torch.float16)` / `astype(np.float16)`: the dtype changes;
values are kept exact (float16 quantization is not modelled). -/
def toFloat16 (t : Tensor) : Tensor := { t with dtype := "float16" }

/-- `torch.nn.functional.interpolate(…, size=(out_h, out_w),
mode="bilinear", align_corners=False)` source coordinate, floor index and
fractional weight for one axis. -/
def bilinearAt (size out i : ℕ) : ℕ × ℕ × ℚ :=
  let src : ℚ := ((i : ℚ) + 1 / 2) * size / out - 1 / 2
  let x0 : ℤ := ⌊src⌋
  let w : ℚ := src - x0
  let clampI : ℤ → ℕ := fun z => (min (max z 0) ((size : ℤ) - 1)).toNat
  (clampI x0, clampI (x0 + 1), w)

/-- Bilinear resampling of a `[C, H, W]` tensor to `[C, out_h, out_w]`
(external torch, modelled by the standard align_corners=False formula with
edge clamping). -/
def interpolate_bilinear (t : Tensor) (out_h out_w : ℕ) : Tensor :=
  let c := t.shape.getD 0 0
  let h := t.shape.getD 1 0
  let w := t.shape.getD 2 0
  ⟨[c, out_h, out_w], t.dtype, fun idx =>
    let ch := idx / (out_h * out_w)
    let rem := idx % (out_h * out_w)
    let i := rem / out_w
    let j := rem % out_w
    let y := bilinearAt h out_h i
    let x := bilinearAt w out_w j
    let v00 := t.data ((ch * h + y.1) * w + x.1)
    let v01 := t.data ((ch * h + y.1) * w + x.2.1)
    let v10 := t.data ((ch * h + y.2.1) * w + x.1)
    let v11 := t.data ((ch * h + y.2.1) * w + x.2.1)
    (1 - y.2.2) * ((1 - x.2.2) * v00 + x.2.2 * v01) +
      y.2.2 * ((1 - x.2.2) * v10 + x.2.2 * v11)⟩

/-- `torch.nn.functional.adaptive_avg_pool2d` of an `[H, W]` matrix to
`[out_h, out_w]` (external torch, modelled by the standard cell-average
formula with floor/ceil cell boundaries). -/
def adaptive_avg_pool (t : Tensor) (out_h out_w : ℕ) : Tensor :=
  let hI := t.shape.getD 0 0
  let wI := t.shape.getD 1 0
  ⟨[out_h, out_w], t.dtype, fun idx =>
    let i := idx / out_w
    let j := idx % out_w
    let y0 := i * hI / out_h
    let y1 := ((i + 1) * hI + out_h - 1) / out_h
    let x0 := j * wI / out_w
    let x1 := ((j + 1) * wI + out_w - 1) / out_w
    (∑ y ∈ Finset.Ico y0 y1, ∑ x ∈ Finset.Ico x0 x1, t.data (y * wI + x)) /
      (((y1 - y0) * (x1 - x0) : ℕ) : ℚ)⟩

/-- The cross branch of `AttentionRecorder.record` (lines 106–143): store
the entropy and the per-token activation vector, then require the query
axis to be a perfect square (appending a shape error otherwise), build the
per-token spatial maps, resample them to the configured resolution, fit the
leading axis to `token_count` by zero-padding or truncating, and store the
result as float16. -/
noncomputable def recordCross (st : RecorderState) (layer_id : String)
    (matrix : Tensor) : RecorderState :=
  let st1 := { st with cross_entropy := updateAssoc st.cross_entropy layer_id (_entropy matrix) }
  let query_tokens := matrix.shape.getD 0 0
  let key_tokens := matrix.shape.getD 1 0
  let token_activation : List ℚ :=
    (List.range key_tokens).map (fun k =>
      (∑ q ∈ Finset.range query_tokens, matrix.data (q * key_tokens + k)) / query_tokens)
  let st2 := { st1 with
                token_activation_by_layer :=
                  updateAssoc st1.token_activation_by_layer layer_id token_activation }
  let side := Nat.sqrt query_tokens
  if side * side ≠ query_tokens then
    { st2 with shape_errors := st2.shape_errors ++
      ["step=" ++ toString st2.current_step ++ " layer=" ++ layer_id ++
        " query_tokens=" ++ toString query_tokens ++ " is not square"] }
  else
    let token_maps : Tensor := ⟨[key_tokens, side, side], matrix.dtype,
      fun idx =>
        let c := idx / (side * side)
        let rem := idx % (side * side)
        matrix.data (rem * key_tokens + c)⟩
    let downsampled :=
      interpolate_bilinear token_maps st2.attention_resolution st2.attention_resolution
    let fixed :=
      if downsampled.shape.getD 0 0 ≠ st2.token_count then
        let min_tokens := min (downsampled.shape.getD 0 0) st2.token_count
        (⟨[st2.token_count, st2.attention_resolution, st2.attention_resolution],
          downsampled.dtype,
          fun idx =>
            let c := idx / (st2.attention_resolution * st2.attention_resolution)
            if c < min_tokens then downsampled.data idx else 0⟩ : Tensor)
      else downsampled
    { st2 with cross_maps := updateAssoc st2.cross_maps layer_id (toFloat16 fixed) }

/-- The self branch of `AttentionRecorder.record` (lines 145–150): store the
entropy, average-pool the `[S, S]` matrix to the configured resolution and
store it as float16. -/
noncomputable def recordSelf (st : RecorderState) (layer_id : String)
    (matrix : Tensor) : RecorderState :=
  let st1 := { st with self_entropy := updateAssoc st.self_entropy layer_id (_entropy matrix) }
  let pooled :=
    adaptive_avg_pool matrix st1.self_attention_resolution st1.self_attention_resolution
  { st1 with self_maps := updateAssoc st1.self_maps layer_id (toFloat16 pooled) }

/-- `AttentionRecorder.record` (lines 88–150): unsupported attention types
append a shape error and change nothing else; shape-invalid tensors are
dropped by `_extract_conditional_attention`; otherwise the conditional
matrix is dispatched to the cross or self branch.  The Python method never
raises (all failures are recorded as shape-error strings), which the model
reflects by being a total function into `RecorderState`. -/
noncomputable def record (st : RecorderState) (layer_id attention_type : String)
    (attention_probs : Tensor) (heads : ℤ) : RecorderState :=
  if attention_type ≠ "cross" ∧ attention_type ≠ "self" then
    { st with shape_errors := st.shape_errors ++
      ["step=" ++ toString st.current_step ++ " layer=" ++ layer_id ++
        " has unsupported attention type \x27" ++ attention_type ++ "\x27"] }
  else
    match _extract_conditional_attention st attention_probs heads with
    | (st', none) => st'
    | (st', some matrix) =>
      if attention_type = "cross" then recordCross st' layer_id matrix
      else recordSelf st' layer_id matrix

/-- The dictionary `AttentionRecorder.drain_step` returns (lines 158–167). -/
structure DrainOutput where
  step : ℤ
  timestep : ℤ
  cross_maps : List (String × Tensor)
  self_maps : List (String × Tensor)
  cross_entropy : List (String × ℝ)
  self_entropy : List (String × ℝ)
  mean_token_activation : Option (List ℚ)
  shape_errors : List String

/-- The elementwise mean `np.stack(rows).mean(axis=0)` over the per-layer
activation vectors (`np.stack` requires the rows to share one length, which
they do in every reachable state; the model reads the common length off the
first row). -/
def meanRows (rows : List (List ℚ)) : List ℚ :=
  (List.range (rows.headD []).length).map (fun k =>
    (rows.map (fun row => row.getD k 0)).sum / rows.length)

/-- `AttentionRecorder.drain_step` (lines 152–169): returns the step data —
with `mean_token_activation = None` when no layer produced an activation
vector this step — and clears (only) the shape-error list. -/
def drain_step (st : RecorderState) : RecorderState × DrainOutput :=
  let mean_token_activation : Option (List ℚ) :=
    match st.token_activation_by_layer with
    | [] => none
    | rows => some (meanRows (rows.map (fun p => p.2)))
  ({ st with shape_errors := [] },
    ⟨st.current_step, st.current_timestep, st.cross_maps, st.self_maps,
      st.cross_entropy, st.self_entropy, mean_token_activation, st.shape_errors⟩)

/-- The driver's substitution (generate.py lines 474–477): a `None` mean
token activation becomes the all-zero vector of length `len(tokens)`. -/
def driverMeanTokenActivation (out : DrainOutput) (numTokens : ℕ) : List ℚ :=
  match out.mean_token_activation with
  | none => List.replicate numTokens 0
  | some v => v

/-! ## Theorems about the standalone validator (C3) -/

/-- C3 (amended): when `metadata.json` is present and parses but
`metrics.json` is absent, the standalone `validate` raises
`FileNotFoundError` with the specific message `Missing file: metrics.json`
— it does not return a `passed = false` report. -/
theorem C3_validate_missing_metrics_amended (fs : FileSystem) (f : DFile) (j : Json)
    (hmeta : getAssoc fs "metadata.json" = some f)
    (hf : f.content = .jsonDoc j)
    (hmetrics : getAssoc fs "metrics.json" = none) :
    validate fs = .error (.fileNotFound "Missing file: metrics.json") := by
  unfold validate read_json
  rw [hmeta, hmetrics]
  simp only [hf]
  rfl

/-- C3 counterexample directory: `metadata.json` exists (an empty JSON
object, 2 bytes) and `metrics.json` is absent. -/
def c3Fs : FileSystem := [("metadata.json", ⟨.jsonDoc (.jobj []), 2⟩)]

/-- C3 counterexample: on a directory holding only `metadata.json`, the
standalone `validate` raises (`FileNotFoundError`, message
`Missing file: metrics.json`) and returns no report at all — refuting the
claim that it returns a `passed = false` report and raises no exception. -/
theorem C3_validate_missing_metrics_cex :
    validate c3Fs = .error (.fileNotFound "Missing file: metrics.json") ∧
    ∀ passed errors warnings, validate c3Fs ≠ .ok (passed, errors, warnings) := by
  have h : validate c3Fs = .error (.fileNotFound "Missing file: metrics.json") := rfl
  refine ⟨h, ?_⟩
  intro passed errors warnings hcon
  rw [h] at hcon
  exact Except.noConfusion hcon

/-- C3 witness: the amended theorem applied to the concrete directory. -/
theorem C3_validate_missing_metrics_amended_witness :
    (getAssoc c3Fs "metadata.json" = some ⟨.jsonDoc (.jobj []), 2⟩ ∧
      (⟨.jsonDoc (.jobj []), 2⟩ : DFile).content = .jsonDoc (.jobj []) ∧
      getAssoc c3Fs "metrics.json" = none) ∧
    validate c3Fs = .error (.fileNotFound "Missing file: metrics.json") :=
  ⟨⟨rfl, rfl, rfl⟩,
    C3_validate_missing_metrics_amended c3Fs ⟨.jsonDoc (.jobj []), 2⟩ (.jobj [])
      rfl rfl rfl⟩

/-! ## Theorems about the recorder (C2, C4, C5, C6) -/

/-- C4 (amended): `setStep` stores the new step and timestep and empties the
five per-step map/entropy/activation accumulators, but leaves the
accumulated shape-error list untouched — `shape_errors` is cleared only by
`drain_step`. -/
theorem C4_set_step_resets_amended (st : RecorderState) (step timestep : ℤ) :
    (set_step st step timestep).cross_maps = [] ∧
    (set_step st step timestep).self_maps = [] ∧
    (set_step st step timestep).cross_entropy = [] ∧
    (set_step st step timestep).self_entropy = [] ∧
    (set_step st step timestep).token_activation_by_layer = [] ∧
    (set_step st step timestep).shape_errors = st.shape_errors ∧
    (set_step st step timestep).current_step = step ∧
    (set_step st step timestep).current_timestep = timestep :=
  ⟨rfl, rfl, rfl, rfl, rfl, rfl, rfl, rfl⟩

/-- C4 counterexample: record a rank-2 tensor (which appends a shape error),
then call `setStep` — the shape-error list still holds the entry, so not
every per-step accumulator is empty after `setStep`. -/
theorem C4_set_step_cex :
    (set_step (record (set_step (recState 5 8 8 true) 0 0) "layer_0" "cross"
        ⟨[4, 4], "float32", fun _ => 0⟩ 8) 1 1).shape_errors =
      ["step=0 has invalid attention rank 2"] ∧
    (set_step (record (set_step (recState 5 8 8 true) 0 0) "layer_0" "cross"
        ⟨[4, 4], "float32", fun _ => 0⟩ 8) 1 1).shape_errors ≠ ([] : List String) := by
  have h : (set_step (record (set_step (recState 5 8 8 true) 0 0) "layer_0" "cross"
      ⟨[4, 4], "float32", fun _ => 0⟩ 8) 1 1).shape_errors =
      ["step=0 has invalid attention rank 2"] := rfl
  refine ⟨h, ?_⟩
  rw [h]
  simp

/-- Recording any tensor of rank 2 under a valid attention type only appends
the rank error message (the same state otherwise). -/
theorem record_rank2 (st : RecorderState) (layer_id atype : String) (t : Tensor)
    (heads : ℤ) (hty : atype = "cross" ∨ atype = "self") (h2 : t.shape.length = 2) :
    record st layer_id atype t heads =
      { st with shape_errors := st.shape_errors ++ [rankErrMsg st.current_step 2] } := by
  unfold record _extract_conditional_attention
  rw [if_neg (by rcases hty with rfl | rfl <;> simp)]
  rw [h2]
  rfl

theorem charsContain_append_right (l₁ l₂ pat : List Char)
    (h : charsContain l₂ pat = true) : charsContain (l₁ ++ l₂) pat = true := by
  induction l₁ with
  | nil => simpa using h
  | cons a as ih =>
    have hunf : charsContain ((a :: as) ++ l₂) pat =
        (charsStartWith (a :: (as ++ l₂)) pat || charsContain (as ++ l₂) pat) := rfl
    rw [hunf, ih]
    simp

/-- The rank error message always names the observed rank (`"rank 2"` occurs
in it), whatever the current step is. -/
theorem rankErrMsg_contains_rank (step : ℤ) :
    strContains (rankErrMsg step 2) "rank 2" = true := by
  unfold strContains rankErrMsg
  have hsplit :
      ("step=" ++ toString step ++ " has invalid attention rank " ++
        toString (2 : ℕ)).toList
        = ("step=" ++ toString step).toList ++
          (" has invalid attention rank " ++ toString (2 : ℕ)).toList := by
    simp [String.toList, String.data_append]
  rw [hsplit]
  exact charsContain_append_right _ _ _ (by decide)

/-- C6 (amended): recording a rank-2 tensor appends exactly one shape-error
string, which names the current step and the observed rank (but *not* the
layer), raises nothing (`record` is total), and leaves the cross/self maps
unchanged, so the layer gains no map in the subsequent `drain_step` output. -/
theorem C6_record_rank2_amended (st : RecorderState) (layer_id atype : String)
    (t : Tensor) (heads : ℤ)
    (hty : atype = "cross" ∨ atype = "self") (h2 : t.shape.length = 2) :
    (record st layer_id atype t heads).shape_errors =
      st.shape_errors ++ [rankErrMsg st.current_step 2] ∧
    strContains (rankErrMsg st.current_step 2) "rank 2" = true ∧
    getAssoc (record st layer_id atype t heads).cross_maps layer_id =
      getAssoc st.cross_maps layer_id ∧
    getAssoc (record st layer_id atype t heads).self_maps layer_id =
      getAssoc st.self_maps layer_id ∧
    (drain_step (record st layer_id atype t heads)).2.cross_maps = st.cross_maps ∧
    (drain_step (record st layer_id atype t heads)).2.self_maps = st.self_maps := by
  rw [record_rank2 st layer_id atype t heads hty h2]
  exact ⟨rfl, rankErrMsg_contains_rank st.current_step, rfl, rfl, rfl, rfl⟩

/-- C6 witness: the amended theorem applied to a concrete recorder at step 0
and a concrete rank-2 tensor. -/
theorem C6_record_rank2_amended_witness :
    (("cross" = "cross" ∨ "cross" = "self") ∧
      (⟨[4, 4], "float32", fun _ => 0⟩ : Tensor).shape.length = 2) ∧
    ((record (set_step (recState 5 8 8 true) 0 0) "layer_0" "cross"
        ⟨[4, 4], "float32", fun _ => 0⟩ 8).shape_errors =
      (set_step (recState 5 8 8 true) 0 0).shape_errors ++
        [rankErrMsg (set_step (recState 5 8 8 true) 0 0).current_step 2] ∧
    strContains (rankErrMsg (set_step (recState 5 8 8 true) 0 0).current_step 2)
        "rank 2" = true ∧
    getAssoc (record (set_step (recState 5 8 8 true) 0 0) "layer_0" "cross"
        ⟨[4, 4], "float32", fun _ => 0⟩ 8).cross_maps "layer_0" =
      getAssoc (set_step (recState 5 8 8 true) 0 0).cross_maps "layer_0" ∧
    getAssoc (record (set_step (recState 5 8 8 true) 0 0) "layer_0" "cross"
        ⟨[4, 4], "float32", fun _ => 0⟩ 8).self_maps "layer_0" =
      getAssoc (set_step (recState 5 8 8 true) 0 0).self_maps "layer_0" ∧
    (drain_step (record (set_step (recState 5 8 8 true) 0 0) "layer_0" "cross"
        ⟨[4, 4], "float32", fun _ => 0⟩ 8)).2.cross_maps =
      (set_step (recState 5 8 8 true) 0 0).cross_maps ∧
    (drain_step (record (set_step (recState 5 8 8 true) 0 0) "layer_0" "cross"
        ⟨[4, 4], "float32", fun _ => 0⟩ 8)).2.self_maps =
      (set_step (recState 5 8 8 true) 0 0).self_maps) :=
  ⟨⟨Or.inl rfl, rfl⟩,
    C6_record_rank2_amended (set_step (recState 5 8 8 true) 0 0) "layer_0" "cross"
      ⟨[4, 4], "float32", fun _ => 0⟩ 8 (Or.inl rfl) rfl⟩

/-- C6 counterexample: the single appended error string for a rank-2 record
against layer `layer_7` is `step=0 has invalid attention rank 2`, which does
not contain the layer id — refuting "names both the layer and the observed
rank". -/
theorem C6_rank2_no_layer_name_cex :
    (record (set_step (recState 5 8 8 true) 0 0) "layer_7" "cross"
        ⟨[4, 4], "float32", fun _ => 0⟩ 8).shape_errors =
      ["step=0 has invalid attention rank 2"] ∧
    strContains "step=0 has invalid attention rank 2" "layer_7" = false := by
  refine ⟨rfl, by decide⟩

/-- C5 (amended): the mean token-activation vector `drain_step` returns is
the arithmetic mean across the layers that produced one this step; when no
layer did, `drain_step` itself returns the absent value `None`, and it is
the driver (generate.py lines 474–477) that substitutes the all-zero vector
of length `token_count`. -/
theorem C5_drain_mean_token_activation_amended (st : RecorderState) :
    ((drain_step st).2.mean_token_activation = none ↔
      st.token_activation_by_layer = []) ∧
    (∀ v, (drain_step st).2.mean_token_activation = some v →
      v.length = (st.token_activation_by_layer.headD ("", [])).2.length ∧
      ∀ k, k < v.length → v.getD k 0 =
        (st.token_activation_by_layer.map (fun p => p.2.getD k 0)).sum /
          (st.token_activation_by_layer.length : ℚ)) ∧
    (st.token_activation_by_layer = [] →
      driverMeanTokenActivation (drain_step st).2 st.token_count =
        List.replicate st.token_count 0) := by
  cases hrows : st.token_activation_by_layer with
  | nil =>
    refine ⟨?_, ?_, ?_⟩
    · unfold drain_step
      rw [hrows]
      simp
    · intro v hv
      unfold drain_step at hv
      rw [hrows] at hv
      exact absurd hv (by simp)
    · intro _
      unfold driverMeanTokenActivation drain_step
      rw [hrows]
  | cons p rest =>
    refine ⟨?_, ?_, ?_⟩
    · unfold drain_step
      rw [hrows]
      simp
    · intro v hv
      unfold drain_step at hv
      rw [hrows] at hv
      simp only [Option.some.injEq] at hv
      subst hv
      constructor
      · unfold meanRows
        simp
      · intro k hk
        unfold meanRows at hk ⊢
        simp only [List.length_map, List.length_range] at hk
        rw [List.getD_eq_getElem?_getD, List.getElem?_map, List.getElem?_range hk]
        simp [List.map_map, Function.comp_def]
    · intro hcon
      exact absurd hcon (by simp)

/-- C5 counterexample: right after `setStep` (no layer recorded), the
`drain_step` output's mean token activation is the absent value `None` —
refuting "returns an all-zero vector (not an absent/None value)"; the zero
vector of length `token_count` only appears after the driver's
substitution. -/
theorem C5_drain_none_cex :
    (drain_step (set_step (recState 5 8 8 true) 0 0)).2.mean_token_activation = none ∧
    driverMeanTokenActivation (drain_step (set_step (recState 5 8 8 true) 0 0)).2 5 =
      List.replicate 5 0 :=
  ⟨rfl, rfl⟩

/-! ## Layer selection (`create_recording_processors`,
`src/data-generator/hooks/attention_recorder.py` lines 248–288) -/

structure LayerInfo where
  layer_id : String
  processor_key : String
  attention_type : String
deriving DecidableEq

/-- A processor slot after setup: either a recording processor (holding the
layer id and attention type it will record under; the shared recorder
reference is left implicit) or the layer's original processor object,
kept in place. -/
inductive ProcEntry (α : Type) where
  | recording (layer_id : String) (attention_type : String)
  | original (p : α)

/-- `_matches_any_pattern` (lines 248–251): an empty pattern list matches
everything; otherwise at least one pattern must match.  `fnmatch.fnmatch`
itself is Python-stdlib glob matching, modelled by the parameter `fnm`. -/
def _matches_any_pattern (fnm : String → String → Bool) (value : String)
    (patterns : List String) : Bool :=
  if patterns.isEmpty then true else patterns.any (fun pattern => fnm value pattern)

/-- `".attn2." in key` (line 267). -/
def isCrossKey (key : String) : Bool := strContains key ".attn2."

/-- `".attn1." in key` (line 268). -/
def isSelfKey (key : String) : Bool := strContains key ".attn1."

/-- One iteration of the selection loop over `unet.attn_processors.items()`
(lines 266–281). -/
def selectStep {α : Type} (fnm : String → String → Bool)
    (include_self include_cross : Bool) (patterns : List String) (max_layers : ℤ)
    (acc : List (String × ProcEntry α) × List LayerInfo) (item : String × α) :
    List (String × ProcEntry α) × List LayerInfo :=
  let key := item.1
  let is_cross := isCrossKey key
  let is_self := isSelfKey key
  if (is_cross && include_cross || is_self && include_self) &&
      _matches_any_pattern fnm key patterns &&
      (decide (max_layers ≤ 0) || decide ((acc.2.length : ℤ) < max_layers)) then
    let layer_id := "layer_" ++ toString acc.2.length
    let attention_type := if is_cross then "cross" else "self"
    (acc.1 ++ [(key, .recording layer_id attention_type)],
      acc.2 ++ [⟨layer_id, key, attention_type⟩])
  else
    (acc.1 ++ [(key, .original item.2)], acc.2)

def noLayersMsg : String :=
  "No attention layers selected. Adjust --layers, --include-cross-attention, and --include-self-attention."

/-- `create_recording_processors` (lines 254–288): walk the ordered
processor items, assigning recording processors with sequential ids to the
selected layers and keeping the original processors elsewhere; raise
`RuntimeError` when nothing was selected. -/
def create_recording_processors {α : Type} (fnm : String → String → Bool)
    (items : List (String × α)) (include_self include_cross : Bool)
    (patterns : List String) (max_layers : ℤ) :
    Except String (List (String × ProcEntry α) × List LayerInfo) :=
  let acc := items.foldl
    (selectStep fnm include_self include_cross patterns max_layers) ([], [])
  if acc.2.isEmpty then .error noLayersMsg
  else .ok acc

/-- The claim's per-layer condition, cap aside: the layer's kind is enabled
by the include flags and its key matches at least one pattern (an empty
pattern list matching everything). -/
def claimKindAndMatch (fnm : String → String → Bool)
    (include_self include_cross : Bool) (patterns : List String) (key : String) : Bool :=
  (isCrossKey key && include_cross || isSelfKey key && include_self) &&
    _matches_any_pattern fnm key patterns

/-- The claim's selection flags in traversal order: a layer is selected iff
`should` holds for its key and the running count of already-selected layers
is still below `max_layers` (`max_layers ≤ 0` meaning unlimited). -/
def selFlags (should : String → Bool) (max_layers : ℤ) : ℕ → List String → List Bool
  | _, [] => []
  | c, key :: rest =>
    let s := should key && (decide (max_layers ≤ 0) || decide ((c : ℤ) < max_layers))
    s :: selFlags should max_layers (if s then c + 1 else c) rest

/-- Assembling the claimed result from the selection flags: selected layers
receive sequential ids `layer_c, layer_(c+1), …` in traversal order
independent of their type; non-selected layers keep their original
processor. -/
def buildFromFlags {α : Type} : ℕ → List (String × α) → List Bool →
    List (String × ProcEntry α) × List LayerInfo
  | _, [], _ => ([], [])
  | c, item :: rest, [] =>
    let acc := buildFromFlags c rest []
    ((item.1, .original item.2) :: acc.1, acc.2)
  | c, item :: rest, s :: flags =>
    if s then
      let layer_id := "layer_" ++ toString c
      let attention_type := if isCrossKey item.1 then "cross" else "self"
      let acc := buildFromFlags (c + 1) rest flags
      ((item.1, .recording layer_id attention_type) :: acc.1,
        ⟨layer_id, item.1, attention_type⟩ :: acc.2)
    else
      let acc := buildFromFlags c rest flags
      ((item.1, .original item.2) :: acc.1, acc.2)

theorem selectStep_eq {α : Type} (fnm : String → String → Bool)
    (include_self include_cross : Bool) (patterns : List String) (max_layers : ℤ)
    (acc : List (String × ProcEntry α) × List LayerInfo) (item : String × α) :
    selectStep fnm include_self include_cross patterns max_layers acc item =
      (if claimKindAndMatch fnm include_self include_cross patterns item.1 &&
          (decide (max_layers ≤ 0) || decide ((acc.2.length : ℤ) < max_layers)) then
        (acc.1 ++ [(item.1, ProcEntry.recording ("layer_" ++ toString acc.2.length)
            (if isCrossKey item.1 then "cross" else "self"))],
          acc.2 ++ [⟨"layer_" ++ toString acc.2.length, item.1,
            if isCrossKey item.1 then "cross" else "self"⟩])
      else (acc.1 ++ [(item.1, ProcEntry.original item.2)], acc.2)) := rfl

theorem buildFromFlags_cons {α : Type} (c : ℕ) (item : String × α)
    (rest : List (String × α)) (s : Bool) (flags : List Bool) :
    buildFromFlags c (item :: rest) (s :: flags) =
      (if s then
        ((item.1, ProcEntry.recording ("layer_" ++ toString c)
            (if isCrossKey item.1 then "cross" else "self")) ::
          (buildFromFlags (c + 1) rest flags).1,
          (⟨"layer_" ++ toString c, item.1,
            if isCrossKey item.1 then "cross" else "self"⟩ : LayerInfo) ::
          (buildFromFlags (c + 1) rest flags).2)
      else
        ((item.1, ProcEntry.original item.2) :: (buildFromFlags c rest flags).1,
          (buildFromFlags c rest flags).2)) := rfl

theorem selectFold_eq_build {α : Type} (fnm : String → String → Bool)
    (include_self include_cross : Bool) (patterns : List String) (max_layers : ℤ)
    (items : List (String × α))
    (pm0 : List (String × ProcEntry α)) (sel0 : List LayerInfo) :
    items.foldl (selectStep fnm include_self include_cross patterns max_layers)
      (pm0, sel0) =
      (pm0 ++ (buildFromFlags sel0.length items
        (selFlags (claimKindAndMatch fnm include_self include_cross patterns)
          max_layers sel0.length (items.map Prod.fst))).1,
       sel0 ++ (buildFromFlags sel0.length items
        (selFlags (claimKindAndMatch fnm include_self include_cross patterns)
          max_layers sel0.length (items.map Prod.fst))).2) := by
  induction items generalizing pm0 sel0 with
  | nil => simp [buildFromFlags, selFlags]
  | cons item rest ih =>
    rw [List.map_cons, List.foldl_cons, selectStep_eq]
    unfold selFlags
    cases hs : claimKindAndMatch fnm include_self include_cross patterns item.1 &&
        (decide (max_layers ≤ 0) || decide ((sel0.length : ℤ) < max_layers)) with
    | true =>
      rw [if_pos rfl, ih, buildFromFlags_cons, if_pos rfl]
      simp [List.append_assoc]
    | false =>
      rw [if_neg (by simp), ih, buildFromFlags_cons, if_neg (by simp)]
      simp [List.append_assoc]

theorem buildFromFlags_ids {α : Type} (c : ℕ) (l : List (String × α)) (fl : List Bool) :
    ((buildFromFlags c l fl).2.map (fun i => i.layer_id)) =
      (List.range (buildFromFlags c l fl).2.length).map
        (fun i => "layer_" ++ toString (c + i)) := by
  induction l generalizing c fl with
  | nil =>
    cases fl <;> simp [buildFromFlags]
  | cons item rest ih =>
    cases fl with
    | nil =>
      unfold buildFromFlags
      exact ih c []
    | cons s flags =>
      rw [buildFromFlags_cons]
      cases s with
      | true =>
        rw [if_pos rfl]
        rw [List.map_cons]
        have hrec := ih (c + 1) flags
        rw [hrec]
        simp only [List.length_cons, List.range_succ_eq_map, List.map_cons, List.map_map]
        congr 1
        apply List.map_congr_left
        intro a _
        simp only [Function.comp_apply, Nat.succ_eq_add_one]
        have hc : c + 1 + a = c + (a + 1) := by omega
        rw [hc]
      | false =>
        rw [if_neg (by decide)]
        exact ih c flags

theorem buildFromFlags_sel_nil_iff {α : Type} (c : ℕ) (l : List (String × α))
    (fl : List Bool) (hlen : fl.length = l.length) :
    (buildFromFlags c l fl).2 = [] ↔ fl.all (fun s => !s) := by
  induction l generalizing c fl with
  | nil =>
    match fl, hlen with
    | [], _ => simp [buildFromFlags]
  | cons item rest ih =>
    match fl, hlen with
    | s :: flags, hlen =>
      rw [buildFromFlags_cons]
      cases s with
      | true =>
        rw [if_pos rfl]
        simp
      | false =>
        rw [if_neg (by decide)]
        rw [List.all_cons]
        have hlen' : flags.length = rest.length := by simpa using hlen
        rw [ih c flags hlen']
        simp

theorem selFlags_length (should : String → Bool) (max_layers : ℤ) (c : ℕ)
    (keys : List String) : (selFlags should max_layers c keys).length = keys.length := by
  induction keys generalizing c with
  | nil => rfl
  | cons k rest ih =>
    unfold selFlags
    simp [ih]

/-- C9: the layer selection is exactly the claim's: a layer is selected iff
its kind is enabled by the include flags, its key matches at least one
pattern (empty pattern list matches everything) and the count of already
selected layers is below `max_layers` (`max_layers ≤ 0` = unlimited);
selected layers receive sequential ids `layer_0, layer_1, …` in traversal
order independent of type, non-selected layers keep their original
processor (both visible in `buildFromFlags`), and an empty selection — all
flags false — fails with the configuration error. -/
theorem C9_create_recording_processors_selection {α : Type}
    (fnm : String → String → Bool) (items : List (String × α))
    (include_self include_cross : Bool) (patterns : List String) (max_layers : ℤ) :
    (create_recording_processors fnm items include_self include_cross patterns
        max_layers =
      (if (selFlags (claimKindAndMatch fnm include_self include_cross patterns)
            max_layers 0 (items.map Prod.fst)).all (fun s => !s) then
        .error noLayersMsg
      else
        .ok (buildFromFlags 0 items
          (selFlags (claimKindAndMatch fnm include_self include_cross patterns)
            max_layers 0 (items.map Prod.fst))))) ∧
    ((buildFromFlags 0 items
        (selFlags (claimKindAndMatch fnm include_self include_cross patterns)
          max_layers 0 (items.map Prod.fst))).2.map (fun i => i.layer_id) =
      (List.range (buildFromFlags 0 items
        (selFlags (claimKindAndMatch fnm include_self include_cross patterns)
          max_layers 0 (items.map Prod.fst))).2.length).map
        (fun i => "layer_" ++ toString i)) := by
  constructor
  · unfold create_recording_processors
    have hfold := selectFold_eq_build fnm include_self include_cross patterns
      max_layers items [] []
    simp only [List.length_nil, List.nil_append, Prod.mk.eta] at hfold
    rw [hfold]
    have hlen : (selFlags (claimKindAndMatch fnm include_self include_cross patterns)
        max_layers 0 (items.map Prod.fst)).length = items.length := by
      rw [selFlags_length]
      simp
    have hiff := buildFromFlags_sel_nil_iff 0 items
      (selFlags (claimKindAndMatch fnm include_self include_cross patterns)
        max_layers 0 (items.map Prod.fst)) hlen
    have hcond : (buildFromFlags 0 items
        (selFlags (claimKindAndMatch fnm include_self include_cross patterns)
          max_layers 0 (items.map Prod.fst))).2.isEmpty =
        (selFlags (claimKindAndMatch fnm include_self include_cross patterns)
          max_layers 0 (items.map Prod.fst)).all (fun s => !s) := by
      rw [Bool.eq_iff_iff, List.isEmpty_iff]
      exact hiff
    simp only [hcond]
  · have h := buildFromFlags_ids 0 items
      (selFlags (claimKindAndMatch fnm include_self include_cross patterns)
        max_layers 0 (items.map Prod.fst))
    simpa using h

/-! ## Entropy positivity (for C2) -/

theorem clampProb_pos (x : ℚ) : (0 : ℝ) < (clampProb x : ℝ) := by
  have h : (0 : ℚ) < clampProb x :=
    lt_of_lt_of_le (by norm_num [EPS]) (le_max_right x EPS)
  exact_mod_cast h

theorem entropy_term_nonneg (x : ℚ) (hx1 : x ≤ 1) :
    0 ≤ -((clampProb x : ℝ) * Real.log (clampProb x)) := by
  have hpos := clampProb_pos x
  have hle1 : (clampProb x : ℝ) ≤ 1 := by
    have h : clampProb x ≤ 1 := max_le hx1 (by norm_num [EPS])
    exact_mod_cast h
  have hlog : Real.log (clampProb x) ≤ 0 := Real.log_nonpos (le_of_lt hpos) hle1
  have hmul : (clampProb x : ℝ) * Real.log (clampProb x) ≤ 0 :=
    mul_nonpos_of_nonneg_of_nonpos (le_of_lt hpos) hlog
  linarith

theorem entropy_term_pos (x : ℚ) (hxhalf : x ≤ 1 / 2) :
    0 < -((clampProb x : ℝ) * Real.log (clampProb x)) := by
  have hpos := clampProb_pos x
  have hlt1 : (clampProb x : ℝ) < 1 := by
    have h : clampProb x < 1 :=
      lt_of_le_of_lt (max_le hxhalf (by norm_num [EPS])) (by norm_num)
    exact_mod_cast h
  have hlog : Real.log (clampProb x) < 0 := Real.log_neg hpos hlt1
  have hmul : (clampProb x : ℝ) * Real.log (clampProb x) < 0 :=
    mul_neg_of_pos_of_neg hpos hlog
  linarith

/-- Each row of a `[Q, K]` attention matrix whose entries form a probability
distribution (with `K ≥ 2` keys) contributes strictly positive clamped
Shannon entropy: at least one entry is `≤ 1/2`, and `-p·log p > 0` there. -/
theorem entropy_row_pos (K : ℕ) (g : ℕ → ℚ) (hK : 2 ≤ K)
    (hnn : ∀ j < K, 0 ≤ g j) (hsum : (∑ j ∈ Finset.range K, g j) = 1) :
    0 < ∑ j ∈ Finset.range K, -((clampProb (g j) : ℝ) * Real.log (clampProb (g j))) := by
  have hex : ∃ j0 ∈ Finset.range K, g j0 ≤ 1 / 2 := by
    by_contra hcon
    push_neg at hcon
    have hne : (Finset.range K).Nonempty := Finset.nonempty_range_iff.mpr (by omega)
    have hlt : ∑ j ∈ Finset.range K, (1 / 2 : ℚ) < ∑ j ∈ Finset.range K, g j :=
      Finset.sum_lt_sum_of_nonempty hne (fun j hj => hcon j hj)
    rw [hsum, Finset.sum_const, Finset.card_range, nsmul_eq_mul] at hlt
    have hKq : (2 : ℚ) ≤ (K : ℚ) := by exact_mod_cast hK
    nlinarith
  obtain ⟨j0, hj0mem, hj0⟩ := hex
  apply Finset.sum_pos'
  · intro j hj
    apply entropy_term_nonneg
    have hle : g j ≤ ∑ j ∈ Finset.range K, g j :=
      Finset.single_le_sum (fun i hi => hnn i (Finset.mem_range.mp hi)) hj
    rw [hsum] at hle
    exact hle
  · exact ⟨j0, hj0mem, entropy_term_pos _ hj0⟩

/-- The clamped mean Shannon entropy of a `[Q, K]` matrix of row-wise
probability distributions is strictly positive. -/
theorem entropy_sum_pos (Q K : ℕ) (f : ℕ → ℚ) (hQ : 0 < Q) (hK : 2 ≤ K)
    (hnn : ∀ i < Q, ∀ j < K, 0 ≤ f (i * K + j))
    (hsum : ∀ i < Q, (∑ j ∈ Finset.range K, f (i * K + j)) = 1) :
    0 < (∑ i ∈ Finset.range Q, ∑ j ∈ Finset.range K,
      -((clampProb (f (i * K + j)) : ℝ) * Real.log (clampProb (f (i * K + j))))) /
      (Q : ℝ) := by
  apply div_pos
  · apply Finset.sum_pos
    · intro i hi
      exact entropy_row_pos K (fun j => f (i * K + j)) hK
        (fun j hj => hnn i (Finset.mem_range.mp hi) j hj)
        (hsum i (Finset.mem_range.mp hi))
    · exact Finset.nonempty_range_iff.mpr (by omega)
  · exact_mod_cast hQ

theorem interpolate_bilinear_shape (t : Tensor) (oh ow : ℕ) :
    (interpolate_bilinear t oh ow).shape = [t.shape.getD 0 0, oh, ow] := rfl

/-- C2: for a recorder with `token_count = 5`, `attention_resolution = 8`
and `cfg_enabled = true`, recording a cross tensor of shape `[16, 64, 5]`
with `heads = 8` — whose per-head rows are probability distributions over
the 5 keys — selects conditional batch index 1 (`B = 2`), averages the 8
heads of that conditional slice into a `[64, 5]` matrix, stores a cross map
of shape `[5, 8, 8]` tagged as 16-bit float, stores a strictly positive
(finite, real) entropy scalar for that layer, and appends no shape error. -/
theorem C2_record_cross_shape_entropy (st : RecorderState) (layer_id : String)
    (t : Tensor)
    (htc : st.token_count = 5)
    (hres : st.attention_resolution = 8)
    (hcfg : st.cfg_enabled = true)
    (hshape : t.shape = [16, 64, 5])
    (hnn : ∀ bh < 16, ∀ q < 64, ∀ k < 5, 0 ≤ t.data ((bh * 64 + q) * 5 + k))
    (hsum : ∀ bh < 16, ∀ q < 64,
      (∑ k ∈ Finset.range 5, t.data ((bh * 64 + q) * 5 + k)) = 1) :
    cond_index st.cfg_enabled 2 = 1 ∧
    (∃ m, (_extract_conditional_attention st t 8).2 = some m ∧
      m.shape = [64, 5] ∧
      ∀ q < 64, ∀ k < 5, m.data (q * 5 + k) =
        (∑ hh ∈ Finset.range 8, t.data (((8 + hh) * 64 + q) * 5 + k)) / 8) ∧
    (∃ M, getAssoc (record st layer_id "cross" t 8).cross_maps layer_id = some M ∧
      M.shape = [5, 8, 8] ∧ M.dtype = "float16") ∧
    (∃ e, getAssoc (record st layer_id "cross" t 8).cross_entropy layer_id = some e ∧
      0 < e) ∧
    (record st layer_id "cross" t 8).shape_errors = st.shape_errors := by
  obtain ⟨sh, dt, dat⟩ := t
  dsimp only at hshape hnn hsum
  subst hshape
  have hci : cond_index st.cfg_enabled 2 = 1 := by
    rw [hcfg]
    rfl
  set mE : Tensor := ⟨[64, 5], dt, fun idx =>
      (∑ hh ∈ Finset.range 8,
        dat (((cond_index st.cfg_enabled 2 * 8 + hh) * 64 + idx / 5) * 5 + idx % 5)) /
      (8 : ℚ)⟩ with hmE
  have hext : _extract_conditional_attention st ⟨[16, 64, 5], dt, dat⟩ 8 =
      (st, some mE) := by
    unfold _extract_conditional_attention
    rw [if_neg (by norm_num)]
    rw [if_neg (by norm_num)]
    dsimp only
    rw [if_neg (by decide)]
    rw [hmE]
    rfl
  have hmdata : ∀ q < 64, ∀ k < 5,
      (∑ hh ∈ Finset.range 8,
        dat (((cond_index st.cfg_enabled 2 * 8 + hh) * 64 + (q * 5 + k) / 5) * 5 +
          (q * 5 + k) % 5)) / (8 : ℚ) =
      (∑ hh ∈ Finset.range 8, dat (((8 + hh) * 64 + q) * 5 + k)) / 8 := by
    intro q hq k hk
    have h1 : (q * 5 + k) / 5 = q := by omega
    have h2 : (q * 5 + k) % 5 = k := by omega
    rw [h1, h2, hci, one_mul]
  have hrownn : ∀ i < 64, ∀ j < 5, (0:ℚ) ≤
      (∑ hh ∈ Finset.range 8,
        dat (((cond_index st.cfg_enabled 2 * 8 + hh) * 64 + (i * 5 + j) / 5) * 5 +
          (i * 5 + j) % 5)) / (8 : ℚ) := by
    intro i hi j hj
    rw [hmdata i hi j hj]
    apply div_nonneg
    · apply Finset.sum_nonneg
      intro hh hhmem
      have hh8 : hh < 8 := Finset.mem_range.mp hhmem
      exact hnn (8 + hh) (by omega) i hi j hj
    · norm_num
  have hrowsum : ∀ i < 64,
      (∑ j ∈ Finset.range 5,
        (∑ hh ∈ Finset.range 8,
          dat (((cond_index st.cfg_enabled 2 * 8 + hh) * 64 + (i * 5 + j) / 5) * 5 +
            (i * 5 + j) % 5)) / (8 : ℚ)) = 1 := by
    intro i hi
    rw [Finset.sum_congr rfl (fun j hj => hmdata i hi j (Finset.mem_range.mp hj))]
    rw [← Finset.sum_div]
    rw [Finset.sum_comm]
    rw [Finset.sum_congr rfl
      (fun hh hhmem => hsum (8 + hh) (by
        have := Finset.mem_range.mp hhmem
        omega) i hi)]
    rw [Finset.sum_const, Finset.card_range, nsmul_eq_mul]
    norm_num
  have hrec0 : record st layer_id "cross" ⟨[16, 64, 5], dt, dat⟩ 8 =
      recordCross st layer_id mE := by
    unfold record
    rw [hext]
    rw [if_neg (by simp)]
    rfl
  have hstate : recordCross st layer_id mE =
      { st with
        cross_entropy := updateAssoc st.cross_entropy layer_id (_entropy mE),
        token_activation_by_layer := updateAssoc st.token_activation_by_layer layer_id
          ((List.range 5).map (fun k =>
            (∑ q ∈ Finset.range 64, mE.data (q * 5 + k)) / ((64 : ℕ) : ℚ))),
        cross_maps := updateAssoc st.cross_maps layer_id
          (toFloat16 (interpolate_bilinear
            (⟨[5, 8, 8], mE.dtype, fun idx =>
              mE.data ((idx % (8 * 8)) * 5 + idx / (8 * 8))⟩ : Tensor) 8 8)) } := by
    unfold recordCross
    simp only [hmE]
    simp only [List.getD_cons_zero, List.getD_cons_succ]
    simp only [show Nat.sqrt 64 = 8 by norm_num]
    rw [if_neg (by norm_num)]
    simp only [hres, htc]
    rw [if_neg (by simp [interpolate_bilinear_shape])]
  have hepos : 0 < _entropy mE :=
    entropy_sum_pos 64 5 mE.data (by norm_num) (by norm_num) hrownn hrowsum
  refine ⟨hci, ⟨mE, by rw [hext], rfl, ?_⟩, ?_, ?_, ?_⟩
  · intro q hq k hk
    rw [hmE]
    exact hmdata q hq k hk
  · rw [hrec0, hstate]
    exact ⟨_, getAssoc_updateAssoc _ _ _, rfl, rfl⟩
  · rw [hrec0, hstate]
    exact ⟨_, getAssoc_updateAssoc _ _ _, hepos⟩
  · rw [hrec0, hstate]

/-- C2 witness inputs: the recorder of the claim and a uniform cross
attention tensor of shape `[16, 64, 5]` whose rows are the uniform
distribution over the 5 keys. -/
def c2State : RecorderState := recState 5 8 8 true

def c2Tensor : Tensor := ⟨[16, 64, 5], "float32", fun _ => (1 : ℚ) / 5⟩

/-- C2 witness: the theorem applied to the concrete recorder and tensor. -/
theorem C2_record_cross_shape_entropy_witness :
    (c2State.token_count = 5 ∧
      c2State.attention_resolution = 8 ∧
      c2State.cfg_enabled = true ∧
      c2Tensor.shape = [16, 64, 5] ∧
      (∀ bh < 16, ∀ q < 64, ∀ k < 5, 0 ≤ c2Tensor.data ((bh * 64 + q) * 5 + k)) ∧
      (∀ bh < 16, ∀ q < 64,
        (∑ k ∈ Finset.range 5, c2Tensor.data ((bh * 64 + q) * 5 + k)) = 1)) ∧
    (cond_index c2State.cfg_enabled 2 = 1 ∧
      (∃ m, (_extract_conditional_attention c2State c2Tensor 8).2 = some m ∧
        m.shape = [64, 5] ∧
        ∀ q < 64, ∀ k < 5, m.data (q * 5 + k) =
          (∑ hh ∈ Finset.range 8, c2Tensor.data (((8 + hh) * 64 + q) * 5 + k)) / 8) ∧
      (∃ M, getAssoc (record c2State "layer_0" "cross" c2Tensor 8).cross_maps
          "layer_0" = some M ∧ M.shape = [5, 8, 8] ∧ M.dtype = "float16") ∧
      (∃ e, getAssoc (record c2State "layer_0" "cross" c2Tensor 8).cross_entropy
          "layer_0" = some e ∧ 0 < e) ∧
      (record c2State "layer_0" "cross" c2Tensor 8).shape_errors =
        c2State.shape_errors) :=
  ⟨⟨rfl, rfl, rfl, rfl,
    by
      intro bh _ q _ k _
      norm_num [c2Tensor],
    by
      intro bh _ q _
      simp only [c2Tensor, Finset.sum_const, Finset.card_range, nsmul_eq_mul]
      norm_num⟩,
    C2_record_cross_shape_entropy c2State "layer_0" c2Tensor rfl rfl rfl rfl
      (by
        intro bh _ q _ k _
        norm_num [c2Tensor])
      (by
        intro bh _ q _
        simp only [c2Tensor, Finset.sum_const, Finset.card_range, nsmul_eq_mul]
        norm_num)⟩

end DiffVis
